import Mathlib

namespace BedrockAgentChat

/-!
Shallow embedding of the session-attribute negotiation and streaming-invocation
core of `streamlit_app.py` (Bedrock agent chat front-end): the attribute
builder `build_session_attributes`, the request construction of
`invoke_agent_stream`, its chunk stream (UTF-8 decoding with permissive error
handling, degenerate-response fallback), the module-level turn orchestration
(guarded by a non-empty user input, with `ClientError` / generic exception
recovery), and the stream consumption loop accumulating the assistant text.
-/

/-- Configuration constants, the source's environment-variable fallbacks. -/
def AGENT_ID : String := "NCTQZKII1Y"

/-- Agent alias identifier fallback. -/
def ALIAS_ID : String := "GDKCKJIYXI"

/-- `STREAM_FINAL_RESPONSE` fallback, parsed to a boolean. -/
def STREAM_FINAL : Bool := true

/-- `APPLY_GUARDRAIL_INTERVAL` fallback. -/
def GUARDRAIL_INTERVAL : Int := 50

/-- `DEFAULT_X_BRAND` fallback. -/
def DEFAULT_BRAND : String := "DEMO-DEMO"

/-- `DEFAULT_X_CHANNEL` fallback. -/
def DEFAULT_CHANNEL : String := "AGENT_TOOL"

/-- `DEFAULT_LANG` fallback. -/
def DEFAULT_LANG : String := "en"

/-- A Python runtime value held in the overrides record: `goodwillSizeGb` is an
int as the UI stores it, but session state could in principle hold a string, on
which `int(...)` performs string-to-integer parsing. -/
inductive PyVal where
  | int (n : Int)
  | str (s : String)
deriving DecidableEq, Repr

/-- Whitespace characters stripped by Python `int(str)` before parsing
(ASCII subset of Python's notion of whitespace). -/
def pyIsSpace (c : Char) : Bool :=
  c == ' ' || c == '\t' || c == '\n' || c == '\r' || c == '\x0b' || c == '\x0c'

/-- ASCII decimal digit test. -/
def isDigitB (c : Char) : Bool := '0' ≤ c && c ≤ '9'

/-- Acceptor for the tail of a Python integer literal after its first digit:
digits with single underscores allowed only between digits. -/
def digRun : List Char → Bool
  | [] => true
  | '_' :: rest =>
    match rest with
    | c :: rest2 => isDigitB c && digRun rest2
    | [] => false
  | c :: rest => isDigitB c && digRun rest

/-- Value of a list of decimal digit characters, most significant first. -/
def digitsVal (cs : List Char) : Nat :=
  cs.foldl (fun a c => a * 10 + (c.toNat - 48)) 0

/-- Parse an unsigned run of digits (underscore separators allowed between
digits, as Python `int` accepts); `none` when malformed or empty. -/
def parseRun (cs : List Char) : Option Nat :=
  match cs with
  | [] => none
  | c :: rest =>
    if isDigitB c && digRun rest then some (digitsVal (List.filter isDigitB cs))
    else none

/-- Strip leading and trailing whitespace, as Python `int(str)` does. -/
def pyStrip (cs : List Char) : List Char :=
  ((cs.dropWhile pyIsSpace).reverse.dropWhile pyIsSpace).reverse

/-- Python `int(s)` on a string: strip whitespace, optional sign, decimal
digits (ASCII); `none` models the `ValueError` raise. -/
def pyIntOfString (s : String) : Option Int :=
  match pyStrip s.data with
  | '+' :: rest => (parseRun rest).map (fun n => (n : Int))
  | '-' :: rest => (parseRun rest).map (fun n => -(n : Int))
  | cs => (parseRun cs).map (fun n => (n : Int))

/-- Python `int(v)`: identity on ints, string parsing on strings. -/
def pyInt : PyVal → Option Int
  | .int n => some n
  | .str s => pyIntOfString s

/-- The `st.session_state.overrides` record; all keys always present,
emptiness is an empty string (mirrors the initialisation at lines 81-95). -/
structure OverridesRecord where
  jwt : String
  customerOuid : String
  billingAccountOuid : String
  parentOuid : String
  offeringOuid : String
  specOuid : String
  msisdn : String
  goodwillSizeGb : PyVal
  goodwillReason : String
  lang : String
  xBrand : String
  xChannel : String
deriving DecidableEq, Repr

/-- An attribute mapping: a Python dict in insertion order with unique keys. -/
abbrev Attrs := List (String × String)

/-- One conditional dict insertion, `if o.get(k): attrs[k] = o[k]`. -/
def entryIf (cond : Bool) (k v : String) : Attrs :=
  if cond then [(k, v)] else []

/-- Dict key-membership test. -/
def containsKey (a : Attrs) (k : String) : Bool :=
  a.any (fun p => p.1 == k)

/-- Dict lookup (keys are unique by construction, first match). -/
def getVal : Attrs → String → Option String
  | [], _ => none
  | (k, v) :: rest, q => if k == q then some v else getVal rest q

/-- The `try/except` block computing `attrs["goodwillSizeGb"]`:
`size = int(...)`; on success clamp below at 1 and stringify; the `except`
branch writes the literal `"2"`. -/
def goodwillSizeStr (v : PyVal) : String :=
  match pyInt v with
  | some n => toString (if n < 1 then 1 else n)
  | none => "2"

/-- `build_session_attributes()` (lines 196-232), as a function of the
enablement flag and the overrides record it reads from session state.
Insertion order and truthiness conditions follow the source exactly. -/
def build_session_attributes (enabled : Bool) (o : OverridesRecord) : Attrs :=
  if !enabled then [] else
    entryIf (o.jwt != "") "jwt" o.jwt ++
    entryIf (o.customerOuid != "") "customerOuid" o.customerOuid ++
    entryIf (o.lang != "") "lang" o.lang ++
    entryIf (o.xBrand != "") "xBrand" o.xBrand ++
    entryIf (o.xChannel != "") "xChannel" o.xChannel ++
    entryIf (o.billingAccountOuid != "") "billingAccountOuid" o.billingAccountOuid ++
    entryIf (o.parentOuid != "") "parentOuid" o.parentOuid ++
    entryIf (o.offeringOuid != "") "offeringOuid" o.offeringOuid ++
    entryIf (o.specOuid != "") "specOuid" o.specOuid ++
    entryIf (o.msisdn != "") "msisdn" o.msisdn ++
    [("goodwillSizeGb", goodwillSizeStr o.goodwillSizeGb)] ++
    entryIf (o.goodwillReason != "") "goodwillReason" o.goodwillReason

/-- Lead byte 0x80-0xBF: a UTF-8 continuation byte. -/
def isCont (b : Nat) : Bool := 0x80 ≤ b && b ≤ 0xBF

/-- Allowed first continuation byte of a 3-byte sequence (excludes overlong
encodings for lead 0xE0 and surrogates for lead 0xED), as CPython's strict
UTF-8 decoder enforces. -/
def cont3First (b c1 : Nat) : Bool :=
  if b == 0xE0 then 0xA0 ≤ c1 && c1 ≤ 0xBF
  else if b == 0xED then 0x80 ≤ c1 && c1 ≤ 0x9F
  else isCont c1

/-- Allowed first continuation byte of a 4-byte sequence (excludes overlong
encodings for lead 0xF0 and code points above U+10FFFF for lead 0xF4). -/
def cont4First (b c1 : Nat) : Bool :=
  if b == 0xF0 then 0x90 ≤ c1 && c1 ≤ 0xBF
  else if b == 0xF4 then 0x80 ≤ c1 && c1 ≤ 0x8F
  else isCont c1

/-- Decode one UTF-8 sequence at the head of the byte list: `some (cp, w)`
with code point `cp` and width `w`, or `none` when the head is malformed or
truncated. -/
def decodeOne : List Nat → Option (Nat × Nat)
  | [] => none
  | b :: rest =>
    if b ≤ 0x7F then some (b, 1)
    else if 0xC2 ≤ b && b ≤ 0xDF then
      match rest with
      | c1 :: _ =>
        if isCont c1 then some ((b - 0xC0) * 0x40 + (c1 - 0x80), 2) else none
      | [] => none
    else if 0xE0 ≤ b && b ≤ 0xEF then
      match rest with
      | c1 :: c2 :: _ =>
        if cont3First b c1 && isCont c2 then
          some ((b - 0xE0) * 0x1000 + (c1 - 0x80) * 0x40 + (c2 - 0x80), 3)
        else none
      | _ => none
    else if 0xF0 ≤ b && b ≤ 0xF4 then
      match rest with
      | c1 :: c2 :: c3 :: _ =>
        if cont4First b c1 && isCont c2 && isCont c3 then
          some ((b - 0xF0) * 0x40000 + (c1 - 0x80) * 0x1000 + (c2 - 0x80) * 0x40 + (c3 - 0x80), 4)
        else none
      | _ => none
    else none

/-- Fuel-indexed permissive decoder: on a malformed or truncated head, skip
one byte and continue (equivalent to CPython `errors="ignore"`: a skipped
maximal subpart consists of continuation bytes, each of which this loop also
skips). Fuel at least the list length suffices. -/
def utf8IgnoreAux : Nat → List Nat → List Char
  | 0, _ => []
  | _, [] => []
  | fuel + 1, b :: rest =>
    match decodeOne (b :: rest) with
    | some (cp, w) => Char.ofNat cp :: utf8IgnoreAux fuel ((b :: rest).drop w)
    | none => utf8IgnoreAux fuel rest

/-- `bytes.decode("utf-8", errors="ignore")`: total, never raises. -/
def utf8DecodeIgnore (bs : List Nat) : String :=
  String.mk (utf8IgnoreAux bs.length bs)

/-- Fuel-indexed strict decoder: `none` at the first malformed or truncated
sequence, modelling the `UnicodeDecodeError` raise of `errors="strict"`. -/
def utf8StrictAux : Nat → List Nat → Option (List Char)
  | _, [] => some []
  | 0, _ => none
  | fuel + 1, b :: rest =>
    match decodeOne (b :: rest) with
    | some (cp, w) => (utf8StrictAux fuel ((b :: rest).drop w)).map (Char.ofNat cp :: ·)
    | none => none

/-- `bytes.decode("utf-8")` with default strict error handling. -/
def utf8DecodeStrict (bs : List Nat) : Option String :=
  (utf8StrictAux bs.length bs).map String.mk

/-- An event of the `completion` event stream: either a chunk with raw bytes,
or an event without a `"chunk"` key (skipped by the generator). -/
inductive StreamEvent where
  | chunk (bytes : List Nat)
  | other
deriving DecidableEq, Repr

/-- The remote response: an optional `completion` event stream and an
optional `outputText` complete-text field. -/
structure AgentResponse where
  completion : Option (List StreamEvent)
  outputText : Option String
deriving DecidableEq, Repr

/-- The sequence of strings yielded by `invoke_agent_stream` (lines 53-61)
for a given response: fallback to a single `resp.get("outputText", "")` chunk
when `completion` is absent, otherwise one decoded string per chunk event. -/
def invoke_agent_stream_output (resp : AgentResponse) : List String :=
  match resp.completion with
  | none => [resp.outputText.getD ""]
  | some events =>
    events.filterMap (fun e =>
      match e with
      | .chunk bs => some (utf8DecodeIgnore bs)
      | .other => none)

/-- The `streamingConfigurations` block of the request. -/
structure StreamingConfig where
  applyGuardrailInterval : Int
  streamFinalResponse : Bool
deriving DecidableEq, Repr

/-- The optional `sessionState` block: each field models the presence or
absence of the corresponding dict key. -/
structure SessionStateBlock where
  sessionAttributes : Option Attrs
  promptSessionAttributes : Option Attrs
deriving DecidableEq, Repr

/-- The `kwargs` of `client.invoke_agent` (lines 28-49). -/
structure InvokeRequest where
  agentId : String
  agentAliasId : String
  sessionId : String
  inputText : String
  enableTrace : Bool
  streamingConfigurations : StreamingConfig
  sessionState : Option SessionStateBlock
deriving DecidableEq, Repr

/-- Python truthiness of a `dict | None` value. -/
def truthy : Option Attrs → Bool
  | none => false
  | some a => !a.isEmpty

/-- Request construction of `invoke_agent_stream`: base kwargs, then the
`if session_attrs / elif baseline_prompt_attrs` session-state attachment. -/
def invokeRequestOf (prompt session_id : String)
    (session_attrs baseline_prompt_attrs : Option Attrs) : InvokeRequest :=
  { agentId := AGENT_ID
    agentAliasId := ALIAS_ID
    sessionId := session_id
    inputText := prompt
    enableTrace := false
    streamingConfigurations :=
      { applyGuardrailInterval := GUARDRAIL_INTERVAL
        streamFinalResponse := STREAM_FINAL }
    sessionState :=
      if truthy session_attrs then
        some { sessionAttributes := session_attrs
               promptSessionAttributes := session_attrs }
      else if truthy baseline_prompt_attrs then
        some { sessionAttributes := none
               promptSessionAttributes := baseline_prompt_attrs }
      else none }

/-- The baseline prompt attributes built at lines 293-299 when overrides are
off. -/
def baselinePromptAttrs : Attrs :=
  [("xBrand", DEFAULT_BRAND), ("xChannel", DEFAULT_CHANNEL), ("lang", DEFAULT_LANG)]

/-- The request a turn sends (lines 280-316): nothing without user input;
otherwise build the attributes, pass them as `session_attrs if session_attrs
else None`, and pass the baseline prompt attributes exactly when overrides
are off. `some req` means `client.invoke_agent(**kwargs)` is executed with
`req` for the turn. -/
def turnRequest (use_overrides : Bool) (o : OverridesRecord)
    (user_input session_id : String) : Option InvokeRequest :=
  if user_input == "" then none
  else
    let session_attrs := build_session_attributes use_overrides o
    let baseline := if !use_overrides then some baselinePromptAttrs else none
    some (invokeRequestOf user_input session_id
      (if session_attrs.isEmpty then none else some session_attrs) baseline)

/-- A transcript message. -/
structure Message where
  role : String
  content : String
deriving DecidableEq, Repr

/-- The stream-consumption loop (lines 311-318): `acc += chunk` then the
running text is surfaced; returns (surfaced running texts in order, final
accumulator). -/
def consumeStream (chunks : List String) : List String × String :=
  chunks.foldl (fun p c => (p.1 ++ [p.2 ++ c], p.2 ++ c)) ([], "")

/-- Outcome of the `try` block of a turn: a response consumed to the end, or
an exception (`ClientError`, or any other `Exception`) raised anywhere inside
it. -/
inductive InvokeOutcome where
  | ok (resp : AgentResponse)
  | clientError (msg : String)
  | runtimeError (msg : String)
deriving DecidableEq, Repr

/-- The accumulator value after the `try/except` chain (lines 288-323): the
full concatenation on success, else the handler's diagnostic string. -/
def turnAcc : InvokeOutcome → String
  | .ok resp => (consumeStream (invoke_agent_stream_output resp)).2
  | .clientError e => "⚠️ AWS error: " ++ e
  | .runtimeError e => "⚠️ Runtime error: " ++ e

/-- One turn of the module-level orchestration (lines 280-325) acting on the
message list: append the user message, then always append exactly one
assistant message carrying `turnAcc`. -/
def runTurn (msgs : List Message) (user_input : String) (outcome : InvokeOutcome) :
    List Message :=
  if user_input == "" then msgs
  else msgs ++ [{ role := "user", content := user_input },
                { role := "assistant", content := turnAcc outcome }]

/-- The overrides record as initialised at lines 81-95 with the fallback
environment defaults. -/
def defaultOverrides : OverridesRecord :=
  { jwt := ""
    customerOuid := "1E5A1F564E180BD3EBF02D7D5007DB28"
    billingAccountOuid := ""
    parentOuid := ""
    offeringOuid := ""
    specOuid := ""
    msisdn := ""
    goodwillSizeGb := .int 2
    goodwillReason := "boosterOrPassRefund"
    lang := "en"
    xBrand := "DEMO-DEMO"
    xChannel := "AGENT_TOOL" }

/-- Concrete record with an empty customerOuid (operator cleared the field). -/
def recNoCust : OverridesRecord := { defaultOverrides with customerOuid := "" }

/-- Concrete record whose jwt is a single space: non-empty but
whitespace-only. -/
def recWsJwt : OverridesRecord := { defaultOverrides with jwt := " " }

/-- Concrete record whose goodwill size parses to 0 (below the minimum). -/
def recSizeZero : OverridesRecord := { defaultOverrides with goodwillSizeGb := .int 0 }

/-- A response whose completion stream carries no chunk events at all. -/
def respEmptyStream : AgentResponse := { completion := some [], outputText := none }

section HelperLemmas

theorem containsKey_append (a b : Attrs) (k : String) :
    containsKey (a ++ b) k = (containsKey a k || containsKey b k) := by
  simp [containsKey, List.any_append]

theorem containsKey_entryIf (c : Bool) (k v q : String) :
    containsKey (entryIf c k v) q = (c && (k == q)) := by
  cases c <;> simp [entryIf, containsKey]

theorem containsKey_cons (k v q : String) (rest : Attrs) :
    containsKey ((k, v) :: rest) q = ((k == q) || containsKey rest q) := by
  simp [containsKey]

theorem containsKey_nil (q : String) : containsKey [] q = false := by
  simp [containsKey]

theorem getVal_entryIf_append (c : Bool) (k v q : String) (rest : Attrs) :
    getVal (entryIf c k v ++ rest) q =
      if c && (k == q) then some v else getVal rest q := by
  cases c <;> simp [entryIf, getVal]

theorem getVal_build_goodwillSize (o : OverridesRecord) :
    getVal (build_session_attributes true o) "goodwillSizeGb" =
      some (goodwillSizeStr o.goodwillSizeGb) := by
  simp [build_session_attributes, getVal_entryIf_append, getVal]

theorem containsKey_build_goodwillSize (o : OverridesRecord) :
    containsKey (build_session_attributes true o) "goodwillSizeGb" = true := by
  simp [build_session_attributes, containsKey_append, containsKey_entryIf,
    containsKey_cons, containsKey_nil]

theorem build_enabled_ne_nil (o : OverridesRecord) :
    build_session_attributes true o ≠ [] := by
  intro h
  have hk := containsKey_build_goodwillSize o
  rw [h] at hk
  simp [containsKey] at hk

theorem strJoin_nil : String.join [] = "" := rfl

theorem strJoin_cons (s : String) (l : List String) :
    String.join (s :: l) = s ++ String.join l := by
  apply String.ext; simp

theorem strAppend_assoc (a b c : String) : a ++ b ++ c = a ++ (b ++ c) := by
  apply String.ext; simp

theorem strAppend_ne_empty (p e : String) (hp : p.data ≠ []) : p ++ e ≠ "" := by
  intro h
  apply hp
  have hd := congrArg String.data h
  rw [String.data_append] at hd
  exact (List.append_eq_nil.mp hd).1

theorem consumeStream_go (cs : List String) (pre : List String) (acc : String) :
    List.foldl (fun p c => (p.1 ++ [p.2 ++ c], p.2 ++ c)) (pre, acc) cs =
      (pre ++ (List.range cs.length).map (fun i => acc ++ String.join (cs.take (i + 1))),
       acc ++ String.join cs) := by
  induction cs generalizing pre acc with
  | nil => simp [String.join]
  | cons c rest ih =>
    rw [List.foldl_cons, ih]
    refine Prod.ext ?_ ?_
    · show pre ++ [acc ++ c] ++ _ = _
      rw [List.length_cons, List.range_succ_eq_map, List.map_cons, List.map_map,
        List.append_assoc, List.singleton_append]
      congr 1
      simp [strJoin_cons, strJoin_nil, strAppend_assoc, String.append_empty]
    · show acc ++ c ++ String.join rest = _
      rw [strJoin_cons, strAppend_assoc]

theorem consumeStream_spec (cs : List String) :
    consumeStream cs =
      ((List.range cs.length).map (fun i => String.join (cs.take (i + 1))),
       String.join cs) := by
  have h := consumeStream_go cs [] ""
  simp only [consumeStream, h, List.nil_append]
  refine Prod.ext ?_ ?_
  · simp [String.empty_append]
  · simp [String.empty_append]

theorem decodeOne_pos (bs : List Nat) (cp w : Nat) (h : decodeOne bs = some (cp, w)) :
    1 ≤ w := by
  match bs with
  | [] => simp [decodeOne] at h
  | b :: rest =>
    simp only [decodeOne] at h
    repeat' split at h
    all_goals simp_all
    all_goals omega

theorem utf8Aux_agree (fuel : Nat) (bs : List Nat) (hf : bs.length ≤ fuel)
    (l : List Char) (h : utf8StrictAux fuel bs = some l) :
    utf8IgnoreAux fuel bs = l := by
  induction fuel generalizing bs l with
  | zero =>
    match bs with
    | [] =>
      simp [utf8StrictAux] at h
      simp [utf8IgnoreAux, ← h]
    | b :: rest => simp at hf
  | succ f ih =>
    match bs with
    | [] =>
      simp [utf8StrictAux] at h
      simp [utf8IgnoreAux, ← h]
    | b :: rest =>
      rw [utf8StrictAux] at h
      cases hd : decodeOne (b :: rest) with
      | none => rw [hd] at h; simp at h
      | some cw =>
        obtain ⟨cp, w⟩ := cw
        rw [hd] at h
        simp only [Option.map_eq_some'] at h
        obtain ⟨l2, hl2, hcons⟩ := h
        have hw := decodeOne_pos _ _ _ hd
        have hlen : (List.drop w (b :: rest)).length ≤ f := by
          rw [List.length_drop]
          simp only [List.length_cons] at hf ⊢
          omega
        have hred : utf8IgnoreAux (f + 1) (b :: rest) =
            Char.ofNat cp :: utf8IgnoreAux f (List.drop w (b :: rest)) := by
          rw [utf8IgnoreAux, hd]
        rw [hred, ih _ hlen _ hl2, hcons]

theorem utf8Decode_agree (bs : List Nat) (s : String) (h : utf8DecodeStrict bs = some s) :
    utf8DecodeIgnore bs = s := by
  simp only [utf8DecodeStrict, Option.map_eq_some'] at h
  obtain ⟨l, hl, hs⟩ := h
  rw [utf8DecodeIgnore, utf8Aux_agree bs.length bs (Nat.le_refl _) l hl, hs]

theorem build_customerOuid_mem (o : OverridesRecord) :
    containsKey (build_session_attributes true o) "customerOuid" = (o.customerOuid != "") := by
  simp [build_session_attributes, containsKey_append, containsKey_entryIf,
    containsKey_cons, containsKey_nil]

end HelperLemmas

/-- C1, counterexample: with overrides enabled and an empty `customerOuid`,
the turn orchestration still issues the remote invocation (`turnRequest` is
`some`), refuting the claim that no streaming-invocation call is made. -/
theorem no_customerOuid_guard_cex :
    recNoCust.customerOuid = "" ∧
      (turnRequest true recNoCust "hi" "session-1").isSome = true := by
  constructor
  · rfl
  · rfl

/-- C1, amended: the orchestration has no customerOuid guard. For every
overrides record whose `customerOuid` is empty or whitespace-only and every
non-empty user input, the turn still issues the remote invocation; an empty
`customerOuid` is merely filtered out of the attribute mapping. -/
theorem no_customerOuid_guard (o : OverridesRecord) (u sid : String)
    (hc : pyStrip o.customerOuid.data = []) (hu : u ≠ "") :
    (turnRequest true o u sid).isSome = true ∧
    containsKey (build_session_attributes true o) "customerOuid" = (o.customerOuid != "") := by
  constructor
  · simp [turnRequest, hu]
  · exact build_customerOuid_mem o

/-- C1, witness for the amended theorem at a concrete empty-customerOuid
record and non-empty input. -/
theorem no_customerOuid_guard_witness :
    (turnRequest true recNoCust "hi" "session-1").isSome = true ∧
    containsKey (build_session_attributes true recNoCust) "customerOuid" =
      (recNoCust.customerOuid != "") :=
  no_customerOuid_guard recNoCust "hi" "session-1" (by decide) (by decide)

/-- C2, counterexample: a whitespace-only value (jwt = a single space) trims
to empty yet its key is included in the result, refuting the claim that
filtering is by non-emptiness after trimming. -/
theorem build_filter_trim_cex :
    pyStrip recWsJwt.jwt.data = [] ∧ recWsJwt.jwt ≠ "" ∧
      containsKey (build_session_attributes true recWsJwt) "jwt" = true := by
  refine ⟨by decide, by decide, ?_⟩
  rfl

/-- C2, amended: with overrides enabled, filtering is exact and bidirectional
on raw emptiness without trimming: each non-goodwill key appears in the
result iff its string value in the record is non-empty (whitespace-only
values count as non-empty and are included). -/
theorem build_filter_exact (o : OverridesRecord) :
    containsKey (build_session_attributes true o) "jwt" = (o.jwt != "") ∧
    containsKey (build_session_attributes true o) "customerOuid" = (o.customerOuid != "") ∧
    containsKey (build_session_attributes true o) "lang" = (o.lang != "") ∧
    containsKey (build_session_attributes true o) "xBrand" = (o.xBrand != "") ∧
    containsKey (build_session_attributes true o) "xChannel" = (o.xChannel != "") ∧
    containsKey (build_session_attributes true o) "billingAccountOuid" = (o.billingAccountOuid != "") ∧
    containsKey (build_session_attributes true o) "parentOuid" = (o.parentOuid != "") ∧
    containsKey (build_session_attributes true o) "offeringOuid" = (o.offeringOuid != "") ∧
    containsKey (build_session_attributes true o) "specOuid" = (o.specOuid != "") ∧
    containsKey (build_session_attributes true o) "msisdn" = (o.msisdn != "") := by
  refine ⟨?_, ?_, ?_, ?_, ?_, ?_, ?_, ?_, ?_, ?_⟩ <;>
    simp [build_session_attributes, containsKey_append, containsKey_entryIf,
      containsKey_cons, containsKey_nil]

/-- C3, counterexample: a parsed goodwill size of 0 (below 1) is clamped to
"1", not coerced to the default "2", refuting the coerce-to-default clause of
the claim. -/
theorem goodwill_clamp_not_default_cex :
    pyInt recSizeZero.goodwillSizeGb = some 0 ∧
      getVal (build_session_attributes true recSizeZero) "goodwillSizeGb" = some "1" := by
  constructor
  · rfl
  · rfl

/-- C3, amended: with overrides enabled the result always contains
`goodwillSizeGb`; when the record value parses as integer n the emitted
string is `max 1 n` (a value below 1 is clamped to 1, not replaced by the
default 2), on parse failure it is "2", and in all cases the emitted string
is the decimal representation of an integer >= 1. -/
theorem goodwill_size_policy (o : OverridesRecord) :
    ∃ s, getVal (build_session_attributes true o) "goodwillSizeGb" = some s ∧
      (∀ n, pyInt o.goodwillSizeGb = some n → s = toString (max 1 n)) ∧
      (pyInt o.goodwillSizeGb = none → s = "2") ∧
      ∃ m : Int, 1 ≤ m ∧ s = toString m := by
  refine ⟨goodwillSizeStr o.goodwillSizeGb, getVal_build_goodwillSize o, ?_, ?_, ?_⟩
  · intro n hn
    simp only [goodwillSizeStr, hn]
    congr 1
    split <;> omega
  · intro hn
    simp [goodwillSizeStr, hn]
  · cases hp : pyInt o.goodwillSizeGb with
    | none =>
      refine ⟨2, by omega, ?_⟩
      simp [goodwillSizeStr, hp]
      rfl
    | some n =>
      refine ⟨max 1 n, le_max_left 1 n, ?_⟩
      simp only [goodwillSizeStr, hp]
      congr 1
      split <;> omega

/-- C3, witness for the amended theorem at the default record (size 2). -/
theorem goodwill_size_policy_witness :
    ∃ s, getVal (build_session_attributes true defaultOverrides) "goodwillSizeGb" = some s ∧
      (∀ n, pyInt defaultOverrides.goodwillSizeGb = some n → s = toString (max 1 n)) ∧
      (pyInt defaultOverrides.goodwillSizeGb = none → s = "2") ∧
      ∃ m : Int, 1 ≤ m ∧ s = toString m :=
  goodwill_size_policy defaultOverrides

/-- C4, confirmed: session state is attached by exactly three mutually
exclusive cases. A provided non-empty `session_attrs` is mirrored identically
into both the sticky and the turn-scoped slot; otherwise a provided non-empty
`baseline_prompt_attrs` populates only the turn-scoped slot with no
`sessionAttributes` key; otherwise no `sessionState` block is attached. -/
theorem session_state_three_cases (p sid : String) (sa ba : Option Attrs) :
    (∀ a, sa = some a → a ≠ [] →
        (invokeRequestOf p sid sa ba).sessionState =
          some { sessionAttributes := some a, promptSessionAttributes := some a }) ∧
    ((sa = none ∨ sa = some []) → ∀ b, ba = some b → b ≠ [] →
        (invokeRequestOf p sid sa ba).sessionState =
          some { sessionAttributes := none, promptSessionAttributes := some b }) ∧
    ((sa = none ∨ sa = some []) → (ba = none ∨ ba = some []) →
        (invokeRequestOf p sid sa ba).sessionState = none) := by
  refine ⟨?_, ?_, ?_⟩
  · intro a hsa ha
    subst hsa
    simp [invokeRequestOf, truthy, List.isEmpty_iff, ha]
  · intro hsa b hba hb
    subst hba
    have hs : truthy sa = false := by
      rcases hsa with h | h <;> subst h <;> simp [truthy]
    have hbt : truthy (some b) = true := by
      simp [truthy, List.isEmpty_iff, hb]
    simp [invokeRequestOf, hs, hbt]
  · intro hsa hba
    have hs : truthy sa = false := by
      rcases hsa with h | h <;> subst h <;> simp [truthy]
    have hb : truthy ba = false := by
      rcases hba with h | h <;> subst h <;> simp [truthy]
    simp [invokeRequestOf, hs, hb]

/-- C4, witness: the overrides-disabled end-to-end shape — baseline prompt
attributes provided and no session attributes yield a request whose session
state carries only the turn-scoped slot, with no sticky `sessionAttributes`
key. -/
theorem session_state_three_cases_witness :
    (invokeRequestOf "Summarize account" "sess-1" none (some baselinePromptAttrs)).sessionState =
      some { sessionAttributes := none, promptSessionAttributes := some baselinePromptAttrs } :=
  (session_state_three_cases "Summarize account" "sess-1" none
    (some baselinePromptAttrs)).2.1 (Or.inl rfl) baselinePromptAttrs rfl (by decide)

/-- C5, counterexample: a turn whose completion stream carries no chunk
events appends an assistant message whose content is the empty string, so the
assistant content is not always non-empty as the claim states. -/
theorem turn_empty_assistant_content_cex :
    runTurn [] "hi" (.ok respEmptyStream) =
      [{ role := "user", content := "hi" }, { role := "assistant", content := "" }] := by
  rfl

/-- C5, amended: every turn with non-empty input appends exactly one
assistant message (the transcript grows by exactly two messages) and no
per-turn error escapes: a remote-service failure yields the diagnostic
prefixed "AWS error", any other failure the distinct prefix "Runtime error",
both non-empty; on success the content is the accumulated stream text, which
is empty when the stream carried no text. -/
theorem turn_error_recovery (msgs : List Message) (u : String) (oc : InvokeOutcome)
    (hu : u ≠ "") :
    (runTurn msgs u oc).length = msgs.length + 2 ∧
    ∃ a, runTurn msgs u oc =
        msgs ++ [{ role := "user", content := u }, { role := "assistant", content := a }] ∧
      (∀ e, oc = .clientError e → a = "⚠️ AWS error: " ++ e ∧ a ≠ "") ∧
      (∀ e, oc = .runtimeError e → a = "⚠️ Runtime error: " ++ e ∧ a ≠ "") ∧
      (∀ resp, oc = .ok resp → a = String.join (invoke_agent_stream_output resp)) ∧
      ("⚠️ AWS error: " : String) ≠ "⚠️ Runtime error: " := by
  constructor
  · simp [runTurn, hu]
  · refine ⟨turnAcc oc, by simp [runTurn, hu], ?_, ?_, ?_, by decide⟩
    · intro e he
      subst he
      exact ⟨rfl, strAppend_ne_empty _ _ (by decide)⟩
    · intro e he
      subst he
      exact ⟨rfl, strAppend_ne_empty _ _ (by decide)⟩
    · intro resp hr
      subst hr
      simp [turnAcc, consumeStream_spec]

/-- C5, witness for the amended theorem at a concrete failed turn. -/
theorem turn_error_recovery_witness :
    (runTurn [] "hi" (.clientError "boom")).length = List.length ([] : List Message) + 2 ∧
    ∃ a, runTurn [] "hi" (.clientError "boom") =
        ([] : List Message) ++
          [{ role := "user", content := "hi" }, { role := "assistant", content := a }] ∧
      (∀ e, InvokeOutcome.clientError "boom" = .clientError e → a = "⚠️ AWS error: " ++ e ∧ a ≠ "") ∧
      (∀ e, InvokeOutcome.clientError "boom" = .runtimeError e → a = "⚠️ Runtime error: " ++ e ∧ a ≠ "") ∧
      (∀ resp, InvokeOutcome.clientError "boom" = .ok resp →
        a = String.join (invoke_agent_stream_output resp)) ∧
      ("⚠️ AWS error: " : String) ≠ "⚠️ Runtime error: " :=
  turn_error_recovery [] "hi" (.clientError "boom") (by decide)

/-- C6, confirmed: when the response exposes no completion stream, the
generator yields exactly one chunk, the outputText field defaulted to the
empty string, and terminates. -/
theorem fallback_yields_outputText (resp : AgentResponse) (h : resp.completion = none) :
    invoke_agent_stream_output resp = [resp.outputText.getD ""] := by
  simp [invoke_agent_stream_output, h]

/-- C6, witness: a degenerate response carrying only outputText "done" yields
exactly the one chunk "done". -/
theorem fallback_yields_outputText_witness :
    invoke_agent_stream_output { completion := none, outputText := some "done" } = ["done"] :=
  fallback_yields_outputText { completion := none, outputText := some "done" } rfl

/-- C7, confirmed: every chunk event, malformed bytes included, contributes
exactly one permissively decoded string and consumption of the surrounding
events continues; where the strict (raising) decoder succeeds the permissive
decoder agrees, so only invalid bytes are dropped. -/
theorem chunk_decode_permissive (pre post : List StreamEvent) (bs : List Nat)
    (ot : Option String) :
    invoke_agent_stream_output { completion := some (pre ++ .chunk bs :: post), outputText := ot } =
      invoke_agent_stream_output { completion := some pre, outputText := ot } ++
        utf8DecodeIgnore bs ::
          invoke_agent_stream_output { completion := some post, outputText := ot } ∧
    (∀ s, utf8DecodeStrict bs = some s → utf8DecodeIgnore bs = s) := by
  constructor
  · simp [invoke_agent_stream_output, List.filterMap_append, List.filterMap_cons]
  · intro s hs
    exact utf8Decode_agree bs s hs

/-- C7, witness: an invalid 0xFF chunk decodes to the empty string without
aborting and the following chunk is still consumed, while the strict decoder
rejects those bytes. -/
theorem chunk_decode_permissive_witness :
    invoke_agent_stream_output
        { completion := some [.chunk [0xFF], .chunk [0x41]], outputText := none } =
      ["", "A"] ∧ utf8DecodeStrict [0xFF] = none := by
  constructor
  · exact (chunk_decode_permissive [] [.chunk [0x41]] [0xFF] none).1
  · rfl

/-- C8, confirmed: the consumer surfaces, once per chunk and in emission
order, the running concatenation of the chunks so far, and the final
accumulated concatenation becomes the turn's assistant message content. -/
theorem stream_running_concats (chunks : List String) :
    (consumeStream chunks).1 =
      (List.range chunks.length).map (fun i => String.join (chunks.take (i + 1))) ∧
    (consumeStream chunks).2 = String.join chunks ∧
    ∀ (msgs : List Message) (u : String) (resp : AgentResponse), u ≠ "" →
      runTurn msgs u (.ok resp) =
        msgs ++ [{ role := "user", content := u },
          { role := "assistant",
            content := (consumeStream (invoke_agent_stream_output resp)).2 }] := by
  refine ⟨?_, ?_, ?_⟩
  · rw [consumeStream_spec]
  · rw [consumeStream_spec]
  · intro msgs u resp hu
    simp [runTurn, hu, turnAcc]

/-- C8, witness: the spec's concrete chunk sequence surfaces exactly the
three running concatenations in order and ends with the full text. -/
theorem stream_running_concats_witness :
    (consumeStream ["Hel", "lo, ", "world"]).1 = ["Hel", "Hello, ", "Hello, world"] ∧
    (consumeStream ["Hel", "lo, ", "world"]).2 = "Hello, world" := by
  have h := stream_running_concats ["Hel", "lo, ", "world"]
  exact ⟨h.1.trans (by rfl), h.2.1.trans (by rfl)⟩

/-- C9, confirmed: with overrides disabled the builder returns the empty
mapping whatever the record holds. -/
theorem build_disabled_empty (o : OverridesRecord) :
    build_session_attributes false o = [] := rfl

/-- C10, confirmed: with overrides enabled the built mapping always contains
`goodwillSizeGb`, hence is never empty, hence every overrides-enabled turn
sends a request whose sessionState block populates both the sticky and the
turn-scoped slot with that mapping. -/
theorem overrides_on_always_session_state (o : OverridesRecord) (u sid : String)
    (hu : u ≠ "") :
    containsKey (build_session_attributes true o) "goodwillSizeGb" = true ∧
    build_session_attributes true o ≠ [] ∧
    ∃ req, turnRequest true o u sid = some req ∧
      req.sessionState =
        some { sessionAttributes := some (build_session_attributes true o),
               promptSessionAttributes := some (build_session_attributes true o) } := by
  refine ⟨containsKey_build_goodwillSize o, build_enabled_ne_nil o, ?_⟩
  have hne := build_enabled_ne_nil o
  refine ⟨invokeRequestOf u sid (some (build_session_attributes true o)) none, ?_, ?_⟩
  · simp [turnRequest, hu, List.isEmpty_iff, hne]
  · simp [invokeRequestOf, truthy, List.isEmpty_iff, hne]

/-- C10, witness at a record whose every optional string field is empty: the
mapping still contains `goodwillSizeGb` and the request still carries both
slots. -/
theorem overrides_on_always_session_state_witness :
    containsKey (build_session_attributes true recNoCust) "goodwillSizeGb" = true ∧
    build_session_attributes true recNoCust ≠ [] ∧
    ∃ req, turnRequest true recNoCust "hi" "sess-2" = some req ∧
      req.sessionState =
        some { sessionAttributes := some (build_session_attributes true recNoCust),
               promptSessionAttributes := some (build_session_attributes true recNoCust) } :=
  overrides_on_always_session_state recNoCust "hi" "sess-2" (by decide)

end BedrockAgentChat
